import Mathlib

/-!
Shallow embedding of the `config` package of the containerlab repository:
the template store (`LoadTemplate`), the template renderer (`RenderTemplate`),
per-node and per-link rendering (`RenderNode`, `RenderLink`) and the template
function library members the development reasons about (`ipmask`, `slice`).

Go maps with string keys are modelled as association lists with first-match
lookup and replace-or-append update (`alookup` / `aset`); this matches Go map
semantics for lookup and assignment.  Go map iteration order is unspecified;
the model iterates in list order, and every theorem below that depends on an
iteration either is order-insensitive or carries freshness hypotheses that
make it so.  A Go runtime panic (nil dereference, out-of-range index) is
modelled as the explicit outcome `RunRes.panic`, distinct from an error
return `RunRes.err`.
-/

namespace Config

abbrev GoMap (α : Type) := List (String × α)

/-- Go map read `m[k]`: first binding of `k` wins. -/
def alookup {α : Type} : GoMap α → String → Option α
  | [], _ => none
  | p :: rest, k => if p.1 = k then some p.2 else alookup rest k

/-- Go map write `m[k] = v`: replace the binding in place, else append. -/
def aset {α : Type} : GoMap α → String → α → GoMap α
  | [], k, v => [(k, v)]
  | p :: rest, k, v => if p.1 = k then (k, v) :: rest else p :: aset rest k v

/-- Key list of a map, in binding order. -/
def keys {α : Type} (m : GoMap α) : List String := m.map Prod.fst

theorem alookup_aset_self {α : Type} (m : GoMap α) (k : String) (v : α) :
    alookup (aset m k v) k = some v := by
  induction m with
  | nil => simp [aset, alookup]
  | cons p rest ih =>
    by_cases h : p.1 = k
    · simp [aset, alookup, h]
    · simp [aset, alookup, h, ih]

theorem alookup_aset_ne {α : Type} (m : GoMap α) (k q : String) (v : α)
    (h : q ≠ k) : alookup (aset m k v) q = alookup m q := by
  have hkq : ¬k = q := fun hk => h hk.symm
  induction m with
  | nil =>
    simp only [aset, alookup]
    rw [if_neg hkq]
  | cons p rest ih =>
    simp only [aset]
    by_cases hp : p.1 = k
    · rw [if_pos hp]
      simp only [alookup]
      rw [if_neg hkq, if_neg (fun hpq : p.1 = q => h (hpq.symm.trans hp))]
    · rw [if_neg hp]
      simp only [alookup]
      by_cases hq : p.1 = q
      · rw [if_pos hq, if_pos hq]
      · rw [if_neg hq, if_neg hq]
        exact ih

theorem mem_keys_aset {α : Type} (m : GoMap α) (k q : String) (v : α) :
    q ∈ keys (aset m k v) ↔ q ∈ keys m ∨ q = k := by
  induction m with
  | nil => simp [aset, keys, eq_comm]
  | cons p rest ih =>
    simp only [aset]
    by_cases hp : p.1 = k
    · rw [if_pos hp]
      simp only [keys, List.map_cons, List.mem_cons]
      subst hp
      tauto
    · rw [if_neg hp]
      simp only [keys, List.map_cons, List.mem_cons] at *
      tauto

theorem keys_nodup_aset {α : Type} (m : GoMap α) (k : String) (v : α)
    (h : (keys m).Nodup) : (keys (aset m k v)).Nodup := by
  induction m with
  | nil => simp [aset, keys]
  | cons p rest ih =>
    simp only [keys, List.map_cons, List.nodup_cons] at h
    simp only [aset]
    by_cases hp : p.1 = k
    · rw [if_pos hp]
      subst hp
      simp only [keys, List.map_cons, List.nodup_cons]
      exact h
    · rw [if_neg hp]
      simp only [keys, List.map_cons, List.nodup_cons]
      refine ⟨?_, ih h.2⟩
      intro hmem
      rcases (mem_keys_aset rest k p.1 v).mp hmem with hin | heq
      · exact h.1 hin
      · exact hp heq

theorem alookup_eq_none_iff {α : Type} (m : GoMap α) (k : String) :
    alookup m k = none ↔ k ∉ keys m := by
  induction m with
  | nil => simp [alookup, keys]
  | cons p rest ih =>
    simp only [alookup, keys, List.map_cons, List.mem_cons]
    by_cases hp : p.1 = k
    · rw [if_pos hp]
      subst hp
      simp
    · rw [if_neg hp]
      rw [ih]
      simp only [keys]
      constructor
      · intro hnot hor
        rcases hor with heq | hin
        · exact hp heq.symm
        · exact hnot hin
      · intro hnot hin
        exact hnot (Or.inr hin)

theorem alookup_of_mem_nodup {α : Type} (m : GoMap α) (k : String) (v : α)
    (hmem : (k, v) ∈ m) (hnd : (keys m).Nodup) : alookup m k = some v := by
  induction m with
  | nil => simp at hmem
  | cons p rest ih =>
    simp only [keys, List.map_cons, List.nodup_cons] at hnd
    rcases List.mem_cons.mp hmem with heq | hin
    · rw [← heq]
      simp [alookup]
    · have hne : ¬p.1 = k := by
        intro h
        exact hnd.1 (h ▸ List.mem_map_of_mem Prod.fst hin)
      simp only [alookup]
      rw [if_neg hne]
      exact ih hin hnd.2

/-! Line scanning: `bufio.Scanner` with the default `ScanLines` split function,
as used by `RenderTemplate` to turn the rendered byte output into lines.
`ScanLines` emits the text before each newline with one trailing carriage
return removed, and at end of input emits the leftover bytes as a final token
only when they are non-empty. -/

/-- Go `dropCR`: strip one trailing carriage return. -/
def dropCR (l : List Char) : List Char :=
  if l.getLast? = some '\r' then l.dropLast else l

/-- Scanner loop with the characters read so far (reversed) in `acc`. -/
def scanAux (acc : List Char) : List Char → List (List Char)
  | [] => if acc.isEmpty then [] else [dropCR acc.reverse]
  | c :: cs =>
    if c = '\n' then dropCR acc.reverse :: scanAux [] cs
    else scanAux (c :: acc) cs

/-- All tokens produced by the scanner on the full input. -/
def scanTokens (s : List Char) : List (List Char) := scanAux [] s

/-- Lines of a rendered output string, as `RenderTemplate` collects them. -/
def scanLines (s : String) : List String := (scanTokens s.data).map List.asString

/-- Joining lines with newline separators (no terminating newline). -/
def joinNL : List (List Char) → List Char
  | [] => []
  | [l] => l
  | l :: ls => l ++ '\n' :: joinNL ls

/-- Split loop for `goSplit`, with the characters of the current field
(reversed) in `acc`. -/
def splitAux (sep : Char) (acc : List Char) : List Char → List (List Char)
  | [] => [acc.reverse]
  | c :: cs =>
    if c = sep then acc.reverse :: splitAux sep [] cs
    else splitAux sep (c :: acc) cs

/-- Go `strings.Split` for a one-character separator (the package only splits
on `\x2c` and `/`): every field is kept, including empty ones, and the empty
string yields one empty field. -/
def goSplit (s : String) (sep : Char) : List String :=
  (splitAux sep [] s.data).map List.asString

/-! Data model and engine operations. -/

/-- Outcome of running a piece of Go code: a runtime panic, an error return,
or a normal result. -/
inductive RunRes (α : Type) where
  | panic : RunRes α
  | err : String → RunRes α
  | ok : α → RunRes α
deriving DecidableEq

/-- A topology node as this engine sees it: long and short name plus labels. -/
structure Node where
  longName : String
  shortName : String
  labels : GoMap String
deriving DecidableEq

/-- A link: endpoint nodes A and B, the shared label map, and the display
string produced by the link's Stringer, used in diagnostics. -/
structure Link where
  A : Node
  B : Node
  labels : GoMap String
  display : String
deriving DecidableEq

/-- Rendering result: target node, template name, provenance tag, the labels
used and the ordered output lines. -/
structure ConfigSnippet where
  targetNode : Option Node
  templateName : String
  source : String
  templateLabels : GoMap String
  Config : List String
deriving DecidableEq

/-- Modelled from the spec: the config package's label-key constant for a
node's system IP (declared outside the provided source part; the spec calls
it the endpoint node's system-IP label value). -/
def systemIP : String := "systemip"

/-- Go `LoadTemplate`.  The template cache maps a kind to a `*template.Template`
pointer, i.e. to `Option T` (`none` is a nil pointer).  Parsing is the external
`ParseGlob`, passed in as a pure function of the glob pattern.  Note the Go
multi-assignment `templates[kind], err = ct.ParseGlob(tp)` writes the nil
result into the cache even when parsing fails. -/
def LoadTemplate {T : Type} (parseGlob : String → Except String T)
    (cache : GoMap (Option T)) (kind templatePath : String) :
    GoMap (Option T) × Option String :=
  if (alookup cache kind).isSome then (cache, none)
  else
    match parseGlob (templatePath ++ "/" ++ kind ++ "/*.tmpl") with
    | .ok t => (aset cache kind (some t), none)
    | .error e => (aset cache kind none, some e)

/-- Go `RenderTemplate`.  `exec` is the external `text/template` execution,
yielding either an execution error or the rendered output.  A missing cache
entry or a cached nil pointer means `t.ExecuteTemplate` is invoked on a nil
receiver, which dereferences nil and panics. -/
def RenderTemplate {T : Type} (exec : T → String → GoMap String → Except String String)
    (cache : GoMap (Option T)) (kind name : String) (labels : GoMap String) :
    RunRes ConfigSnippet :=
  match alookup cache kind with
  | none => .panic
  | some none => .panic
  | some (some t) =>
    match exec t name labels with
    | .error e => .err e
    | .ok out =>
      .ok { targetNode := none, templateName := name, source := "",
            templateLabels := labels, Config := scanLines out }

/-- The kind of a node: its `clab-node-kind` label (empty when absent, as a
Go map read of a missing key yields the zero value). -/
def kindOf (n : Node) : String := (alookup n.labels "clab-node-kind").getD ""

/-- Go `RenderNode`: render `base-node.tmpl` for the node's kind against the
node's own labels, then tag provenance. -/
def RenderNode {T : Type} (exec : T → String → GoMap String → Except String String)
    (cache : GoMap (Option T)) (node : Node) : RunRes ConfigSnippet :=
  match RenderTemplate exec cache (kindOf node) "base-node.tmpl" node.labels with
  | .panic => .panic
  | .err e =>
    .err ("render node " ++ node.longName ++ " [" ++ kindOf node ++ "]: " ++ e)
  | .ok s => .ok { s with source := "node", targetNode := some node }

/-- One step of the label-splitting loop of `RenderLink`: split the value on
commas; keep token counts 1 and 2, otherwise record a warning (the key is
enough to identify the dropped label here) and leave the map unchanged. -/
def splitStep (acc : GoMap (List String) × List String) (p : String × String) :
    GoMap (List String) × List String :=
  if (goSplit p.2 ',').length = 1 ∨ (goSplit p.2 ',').length = 2 then
    (aset acc.1 p.1 (goSplit p.2 ','), acc.2)
  else (acc.1, acc.2 ++ [p.1])

/-- The initial per-side pair map of `RenderLink`: computed link IPs and the
two endpoint nodes' system-IP labels. -/
def initialPairs (ipA ipB sysA sysB : String) : GoMap (List String) :=
  [("ip", [ipA, ipB]), ("systemip", [sysA, sysB])]

/-- The splitting loop over the link's shared labels. -/
def pairFold (labels : GoMap String) (init : GoMap (List String)) :
    GoMap (List String) × List String :=
  labels.foldl splitStep (init, [])

/-- The underscore-led suffix appended to synthesized default names: the
link's `linkNr` label when present and non-empty, else nothing. -/
def defaultSfx (labels : GoMap String) : String :=
  if ((alookup labels "linkNr").getD "").length > 0 then
    "_" ++ (alookup labels "linkNr").getD ""
  else ""

/-- Default link/interface name synthesis of `RenderLink`. -/
def addDefaultName (l : GoMap (List String)) (labels : GoMap String)
    (shortA shortB : String) : GoMap (List String) :=
  if (alookup l "name").isSome then l
  else aset l "name"
    ["to_" ++ shortB ++ defaultSfx labels, "to_" ++ shortA ++ defaultSfx labels]

/-- The complete per-side pair map of a link, together with the recorded
warnings (keys of labels dropped for bad comma arity). -/
def buildPairMap (ipA ipB sysA sysB : String) (labels : GoMap String)
    (shortA shortB : String) : GoMap (List String) × List String :=
  let fw := pairFold labels (initialPairs ipA ipB sysA sysB)
  (addDefaultName fw.1 labels shortA shortB, fw.2)

/-- The per-attribute assignments of the side loop of `RenderLink`.  The Go
code indexes `v[0]` and `v[1]`; an empty value list never occurs because the
pair map only ever stores 1- or 2-element lists. -/
def sideEntry (first : Bool) (m : GoMap String) (k : String) :
    List String → GoMap String
  | [] => m
  | [x] => aset m k x
  | x :: y :: _ =>
    if first then aset (aset m k x) (k ++ "_far") y
    else aset (aset m k y) (k ++ "_far") x

/-- The label map handed to the template for one side of a link (`first` is
endpoint A, otherwise endpoint B). -/
def buildSide (first : Bool) (l : GoMap (List String)) : GoMap String :=
  l.foldl (fun m p => sideEntry first m p.1 p.2) []

/-- The near value a side receives from a pair-map entry: the first element
for side A, the second (when there are two) for side B. -/
def nearOf (first : Bool) : List String → Option String
  | [] => none
  | [x] => some x
  | x :: y :: _ => some (if first then x else y)

/-- The pair map and warnings `RenderLink` computes for a link, given the two
addresses returned by the external collaborator: the systemip labels come
from the endpoint nodes, the short names feed default-name synthesis. -/
def linkPairMap (link : Link) (ipA ipB : String) :
    GoMap (List String) × List String :=
  buildPairMap ipA ipB ((alookup link.A.labels systemIP).getD "")
    ((alookup link.B.labels systemIP).getD "") link.labels
    link.A.shortName link.B.shortName

/-- Go `RenderLink`.  `linkIP` is the result of the external
`linkIPfromSystemIP` collaborator; the second component of the result is the
list of warnings recorded by the splitting loop. -/
def RenderLink {T : Type} (exec : T → String → GoMap String → Except String String)
    (cache : GoMap (Option T)) (linkIP : Except String (String × String))
    (link : Link) : RunRes (ConfigSnippet × ConfigSnippet) × List String :=
  match linkIP with
  | .error e => (.err (link.display ++ ": " ++ e), [])
  | .ok (ipA, ipB) =>
    let lw := linkPairMap link ipA ipB
    match RenderTemplate exec cache (kindOf link.A) "base-link.tmpl"
        (buildSide true lw.1) with
    | .panic => (.panic, lw.2)
    | .err e => (.err ("render " ++ link.display ++ " on " ++ link.A.longName ++
        " (" ++ kindOf link.A ++ "): " ++ e), lw.2)
    | .ok sA =>
      let sA := { sA with source := link.display, targetNode := some link.A }
      match RenderTemplate exec cache (kindOf link.B) "base-link.tmpl"
          (buildSide false lw.1) with
      | .panic => (.panic, lw.2)
      | .err e => (.err ("render " ++ link.display ++ " on " ++ link.B.longName ++
          " (" ++ kindOf link.B ++ "): " ++ e), lw.2)
      | .ok sB =>
        (.ok (sA, { sB with source := link.display, targetNode := some link.B }),
         lw.2)

/-- The `ipmask` template function on the string form of its argument: split
on `/` and take element 1.  A value without `/` yields a one-element split,
and the unguarded `a[1]` is an out-of-range index, i.e. a runtime panic. -/
def ipmask (v : String) : RunRes String :=
  match (goSplit v '/').get? 1 with
  | some m => .ok m
  | none => .panic

/-- The dynamic values the `slice` template function distinguishes: Go
strings, generic sequences, and ints; `other` stands for every remaining
shape (only its non-matching in the type switches matters).  Strings are
modelled at character granularity. -/
inductive GoVal where
  | str : String → GoVal
  | arr : List GoVal → GoVal
  | int : Int → GoVal
  | other : GoVal

/-- The `slice` template function: type-check `start` and `stop` as ints,
adjust negative indices by the length, then evaluate the unguarded Go slice
expression `v[s:e]`, which panics unless `0 ≤ s ≤ e ≤ len(v)`.  The Go error
texts interpolate the offending value; the interpolation is omitted here. -/
def slice (val start stop : GoVal) : RunRes GoVal :=
  match start with
  | .int s0 =>
    match stop with
    | .int e0 =>
      match val with
      | .str v =>
        let s := if s0 < 0 then s0 + v.length else s0
        let e := if e0 < 0 then e0 + v.length else e0
        if 0 ≤ s ∧ s ≤ e ∧ e ≤ (v.length : Int) then
          .ok (.str (((v.data.drop s.toNat).take (e - s).toNat).asString))
        else .panic
      | .arr v =>
        let s := if s0 < 0 then s0 + v.length else s0
        let e := if e0 < 0 then e0 + v.length else e0
        if 0 ≤ s ∧ s ≤ e ∧ e ≤ (v.length : Int) then
          .ok (.arr ((v.drop s.toNat).take (e - s).toNat))
        else .panic
      | _ => .err "not an array"
    | _ => .err "int expeted for 3rd parameter"
  | _ => .err "int expeted for 2nd parameter"

/-- A well-formed output line: no embedded newline and no trailing carriage
return, so that scanning reproduces it byte for byte. -/
def goodLine (l : List Char) : Prop := '\n' ∉ l ∧ l.getLast? ≠ some '\r'

instance (l : List Char) : Decidable (goodLine l) := by
  unfold goodLine
  infer_instance

theorem dropCR_eq_self (l : List Char) (h : l.getLast? ≠ some '\r') :
    dropCR l = l := by
  simp [dropCR, h]

theorem scanAux_append (acc l rest : List Char) (h : '\n' ∉ l) :
    scanAux acc (l ++ '\n' :: rest) =
      dropCR (acc.reverse ++ l) :: scanAux [] rest := by
  induction l generalizing acc with
  | nil => simp [scanAux]
  | cons c cs ih =>
    simp only [List.mem_cons, not_or] at h
    have hc : ¬c = '\n' := fun he => h.1 he.symm
    simp only [List.cons_append, scanAux]
    rw [if_neg hc]
    simp only [List.append_eq]
    rw [ih (c :: acc) h.2]
    simp

theorem scanAux_no_newline (acc l : List Char) (h : '\n' ∉ l) :
    scanAux acc l =
      if (acc.reverse ++ l).isEmpty then [] else [dropCR (acc.reverse ++ l)] := by
  induction l generalizing acc with
  | nil => simp [scanAux]
  | cons c cs ih =>
    simp only [List.mem_cons, not_or] at h
    have hc : ¬c = '\n' := fun he => h.1 he.symm
    simp only [scanAux]
    rw [if_neg hc]
    rw [ih (c :: acc) h.2]
    simp

theorem scanTokens_terminated (lines : List (List Char))
    (h : ∀ l ∈ lines, goodLine l) (hne : lines ≠ []) :
    scanTokens (joinNL lines ++ ['\n']) = lines := by
  induction lines with
  | nil => exact absurd rfl hne
  | cons l ls ih =>
    cases ls with
    | nil =>
      have hl := h l (List.mem_cons_self l [])
      simp only [joinNL]
      rw [show l ++ ['\n'] = l ++ '\n' :: [] from rfl]
      rw [scanTokens, scanAux_append [] l [] hl.1]
      simp [scanAux, dropCR_eq_self l hl.2]
    | cons l2 ls2 =>
      have hl := h l (List.mem_cons_self l (l2 :: ls2))
      have hrest : ∀ x ∈ l2 :: ls2, goodLine x := fun x hx =>
        h x (List.mem_cons_of_mem l hx)
      simp only [joinNL]
      rw [List.append_assoc, List.cons_append]
      rw [scanTokens, scanAux_append [] l _ hl.1]
      simp only [List.reverse_nil, List.nil_append]
      rw [dropCR_eq_self l hl.2]
      have := ih hrest (by simp)
      rw [scanTokens] at this
      rw [this]

theorem scanTokens_unterminated (lines : List (List Char))
    (h : ∀ l ∈ lines, goodLine l) (hlast : lines.getLast? ≠ some []) :
    scanTokens (joinNL lines) = lines := by
  induction lines with
  | nil => simp [joinNL, scanTokens, scanAux]
  | cons l ls ih =>
    cases ls with
    | nil =>
      have hl := h l (List.mem_cons_self l [])
      have hlne : ¬l.isEmpty := by
        intro hemp
        rw [List.isEmpty_iff] at hemp
        subst hemp
        simp at hlast
      simp only [joinNL]
      rw [scanTokens, scanAux_no_newline [] l hl.1]
      simp only [List.reverse_nil, List.nil_append]
      rw [if_neg hlne, dropCR_eq_self l hl.2]
    | cons l2 ls2 =>
      have hl := h l (List.mem_cons_self l (l2 :: ls2))
      have hrest : ∀ x ∈ l2 :: ls2, goodLine x := fun x hx =>
        h x (List.mem_cons_of_mem l hx)
      have hlast2 : (l2 :: ls2).getLast? ≠ some [] := by
        rwa [List.getLast?_cons_cons] at hlast
      simp only [joinNL]
      rw [scanTokens, scanAux_append [] l _ hl.1]
      simp only [List.reverse_nil, List.nil_append]
      rw [dropCR_eq_self l hl.2]
      have := ih hrest hlast2
      rw [scanTokens] at this
      rw [this]

/-! String helpers for the `_far` key suffix. -/

theorem far_ne_self (k : String) : k ++ "_far" ≠ k := by
  intro h
  have hlen := congrArg String.length h
  rw [String.length_append] at hlen
  have h4 : ("_far" : String).length = 4 := rfl
  omega

theorem append_far_inj {a b : String} (h : a ++ "_far" = b ++ "_far") : a = b := by
  have hd := congrArg String.data h
  rw [String.data_append, String.data_append] at hd
  exact String.ext (List.append_cancel_right hd)

theorem far_ne_name (s : String) : s ++ "_far" ≠ "name" := by
  intro h
  have hd := congrArg String.data h
  rw [String.data_append] at hd
  have hlen := congrArg List.length hd
  rw [List.length_append] at hlen
  have h4 : ("_far" : String).data.length = 4 := rfl
  have hname : ("name" : String).data.length = 4 := rfl
  have hnil : s.data = [] := List.eq_nil_of_length_eq_zero (by omega)
  rw [hnil] at hd
  simp at hd

/-! Lookup lemmas for the per-side maps produced by `buildSide`. -/

theorem sideEntry_lookup_other (first : Bool) (m : GoMap String) (k : String)
    (v : List String) (q : String) (h1 : k ≠ q) (h2 : k ++ "_far" ≠ q) :
    alookup (sideEntry first m k v) q = alookup m q := by
  match v with
  | [] => rfl
  | [x] => exact alookup_aset_ne m k q x (Ne.symm h1)
  | x :: y :: rest =>
    cases first <;>
      simp only [sideEntry, Bool.false_eq_true, if_true, if_false] <;>
      rw [alookup_aset_ne _ _ _ _ (Ne.symm h2), alookup_aset_ne _ _ _ _ (Ne.symm h1)]

theorem sideEntry_lookup_self (first : Bool) (m : GoMap String) (k : String)
    (v : List String) (hv : v ≠ []) :
    alookup (sideEntry first m k v) k = nearOf first v := by
  match v with
  | [x] => simp [sideEntry, nearOf, alookup_aset_self]
  | x :: y :: rest =>
    cases first <;>
      simp only [sideEntry, nearOf, Bool.false_eq_true, if_true, if_false] <;>
      rw [alookup_aset_ne _ _ _ _ (Ne.symm (far_ne_self k)), alookup_aset_self]

theorem sideEntry_lookup_far_pair (first : Bool) (m : GoMap String) (k : String)
    (x y : String) (rest : List String) :
    alookup (sideEntry first m k (x :: y :: rest)) (k ++ "_far") =
      some (if first then y else x) := by
  cases first <;>
    simp only [sideEntry, Bool.false_eq_true, if_true, if_false] <;>
    rw [alookup_aset_self]

theorem sideEntry_lookup_far_single (first : Bool) (m : GoMap String)
    (k x : String) :
    alookup (sideEntry first m k [x]) (k ++ "_far") = alookup m (k ++ "_far") := by
  exact alookup_aset_ne m k (k ++ "_far") x (far_ne_self k)

theorem foldSide_lookup_fresh (first : Bool) (l : GoMap (List String))
    (m : GoMap String) (q : String)
    (h : ∀ p ∈ l, p.1 ≠ q ∧ p.1 ++ "_far" ≠ q) :
    alookup (l.foldl (fun m p => sideEntry first m p.1 p.2) m) q = alookup m q := by
  induction l generalizing m with
  | nil => rfl
  | cons p rest ih =>
    have hp := h p (List.mem_cons_self p rest)
    rw [List.foldl_cons, ih _ fun p hm => h p (List.mem_cons_of_mem _ hm)]
    exact sideEntry_lookup_other first m p.1 p.2 q hp.1 hp.2

theorem foldSide_lookup_mem (first : Bool) (l : GoMap (List String))
    (m : GoMap String) (q : String) (vs : List String)
    (hl : (q, vs) ∈ l) (hnd : (keys l).Nodup)
    (hfar : ∀ p ∈ l, p.1 ++ "_far" ≠ q) (hvs : vs ≠ []) :
    alookup (l.foldl (fun m p => sideEntry first m p.1 p.2) m) q = nearOf first vs := by
  induction l generalizing m with
  | nil => simp at hl
  | cons p rest ih =>
    simp only [keys, List.map_cons, List.nodup_cons] at hnd
    by_cases hp : p.1 = q
    · have hpeq : p = (q, vs) := by
        rcases List.mem_cons.mp hl with h | h
        · exact h.symm
        · refine absurd ?_ hnd.1
          rw [hp]
          exact List.mem_map_of_mem Prod.fst h
      subst hpeq
      rw [List.foldl_cons]
      rw [foldSide_lookup_fresh first rest _ q ?fresh]
      · exact sideEntry_lookup_self first m q vs hvs
      case fresh =>
        intro r hm
        refine ⟨?_, hfar r (List.mem_cons_of_mem _ hm)⟩
        intro he
        refine hnd.1 ?_
        show q ∈ List.map Prod.fst rest
        rw [← he]
        exact List.mem_map_of_mem Prod.fst hm
    · have hlr : (q, vs) ∈ rest := by
        rcases List.mem_cons.mp hl with h | h
        · exact absurd (congrArg Prod.fst h.symm) hp
        · exact h
      rw [List.foldl_cons]
      exact ih _ hlr hnd.2 (fun r hm => hfar r (List.mem_cons_of_mem _ hm))

theorem foldSide_lookup_far_pair (first : Bool) (l : GoMap (List String))
    (m : GoMap String) (q x y : String) (tl : List String)
    (hl : (q, x :: y :: tl) ∈ l) (hnd : (keys l).Nodup)
    (hfresh : ∀ p ∈ l, p.1 ≠ q ++ "_far") :
    alookup (l.foldl (fun m p => sideEntry first m p.1 p.2) m) (q ++ "_far") =
      some (if first then y else x) := by
  induction l generalizing m with
  | nil => simp at hl
  | cons p rest ih =>
    simp only [keys, List.map_cons, List.nodup_cons] at hnd
    by_cases hp : p.1 = q
    · have hpeq : p = (q, x :: y :: tl) := by
        rcases List.mem_cons.mp hl with h | h
        · exact h.symm
        · refine absurd ?_ hnd.1
          rw [hp]
          exact List.mem_map_of_mem Prod.fst h
      subst hpeq
      rw [List.foldl_cons]
      rw [foldSide_lookup_fresh first rest _ _ ?fresh]
      · exact sideEntry_lookup_far_pair first m q x y tl
      case fresh =>
        intro r hm
        refine ⟨hfresh r (List.mem_cons_of_mem _ hm), ?_⟩
        intro he
        refine hnd.1 ?_
        show q ∈ List.map Prod.fst rest
        rw [← append_far_inj he]
        exact List.mem_map_of_mem Prod.fst hm
    · have hlr : (q, x :: y :: tl) ∈ rest := by
        rcases List.mem_cons.mp hl with h | h
        · exact absurd (congrArg Prod.fst h.symm) hp
        · exact h
      rw [List.foldl_cons]
      exact ih _ hlr hnd.2 (fun r hm => hfresh r (List.mem_cons_of_mem _ hm))

theorem foldSide_lookup_far_single (first : Bool) (l : GoMap (List String))
    (m : GoMap String) (q x : String)
    (hl : (q, [x]) ∈ l) (hnd : (keys l).Nodup)
    (hfresh : ∀ p ∈ l, p.1 ≠ q ++ "_far") :
    alookup (l.foldl (fun m p => sideEntry first m p.1 p.2) m) (q ++ "_far") =
      alookup m (q ++ "_far") := by
  induction l generalizing m with
  | nil => rfl
  | cons p rest ih =>
    simp only [keys, List.map_cons, List.nodup_cons] at hnd
    by_cases hp : p.1 = q
    · have hpeq : p = (q, [x]) := by
        rcases List.mem_cons.mp hl with h | h
        · exact h.symm
        · refine absurd ?_ hnd.1
          rw [hp]
          exact List.mem_map_of_mem Prod.fst h
      subst hpeq
      rw [List.foldl_cons]
      rw [foldSide_lookup_fresh first rest _ _ ?fresh]
      · exact sideEntry_lookup_far_single first m q x
      case fresh =>
        intro r hm
        refine ⟨hfresh r (List.mem_cons_of_mem _ hm), ?_⟩
        intro he
        refine hnd.1 ?_
        show q ∈ List.map Prod.fst rest
        rw [← append_far_inj he]
        exact List.mem_map_of_mem Prod.fst hm
    · have hlr : (q, [x]) ∈ rest := by
        rcases List.mem_cons.mp hl with h | h
        · exact absurd (congrArg Prod.fst h.symm) hp
        · exact h
      rw [List.foldl_cons]
      rw [ih _ hlr hnd.2 (fun r hm => hfresh r (List.mem_cons_of_mem _ hm))]
      exact sideEntry_lookup_other first m p.1 p.2 (q ++ "_far")
        (hfresh p (List.mem_cons_self p rest))
        (fun he => hp (append_far_inj he))

theorem mem_of_alookup {α : Type} (m : GoMap α) (k : String) (v : α)
    (h : alookup m k = some v) : (k, v) ∈ m := by
  induction m with
  | nil => simp [alookup] at h
  | cons p rest ih =>
    obtain ⟨a, b⟩ := p
    simp only [alookup] at h
    by_cases hp : a = k
    · rw [if_pos hp] at h
      injection h with h2
      subst hp
      subst h2
      exact List.mem_cons_self _ _
    · rw [if_neg hp] at h
      exact List.mem_cons_of_mem _ (ih h)

/-! Lookup lemmas for the pair-map fold of `RenderLink`. -/

theorem pairFold_lookup_fresh (labels : GoMap String)
    (st : GoMap (List String) × List String) (q : String)
    (h : ∀ p ∈ labels, p.1 ≠ q) :
    alookup (labels.foldl splitStep st).1 q = alookup st.1 q := by
  induction labels generalizing st with
  | nil => rfl
  | cons p rest ih =>
    rw [List.foldl_cons, ih _ (fun r hm => h r (List.mem_cons_of_mem _ hm))]
    have hp := h p (List.mem_cons_self p rest)
    simp only [splitStep]
    by_cases h2 : (goSplit p.2 ',').length = 1 ∨ (goSplit p.2 ',').length = 2
    · rw [if_pos h2]
      exact alookup_aset_ne _ _ _ _ (Ne.symm hp)
    · rw [if_neg h2]

theorem pairFold_lookup_mem (labels : GoMap String)
    (st : GoMap (List String) × List String) (q v : String)
    (hl : (q, v) ∈ labels) (hnd : (keys labels).Nodup)
    (harr : (goSplit v ',').length = 1 ∨ (goSplit v ',').length = 2) :
    alookup (labels.foldl splitStep st).1 q = some (goSplit v ',') := by
  induction labels generalizing st with
  | nil => simp at hl
  | cons p rest ih =>
    simp only [keys, List.map_cons, List.nodup_cons] at hnd
    by_cases hp : p.1 = q
    · have hpeq : p = (q, v) := by
        rcases List.mem_cons.mp hl with h | h
        · exact h.symm
        · refine absurd ?_ hnd.1
          rw [hp]
          exact List.mem_map_of_mem Prod.fst h
      subst hpeq
      rw [List.foldl_cons, pairFold_lookup_fresh rest _ q ?fresh]
      · simp only [splitStep]
        rw [if_pos harr]
        exact alookup_aset_self _ _ _
      case fresh =>
        intro r hm he
        refine hnd.1 ?_
        show q ∈ List.map Prod.fst rest
        rw [← he]
        exact List.mem_map_of_mem Prod.fst hm
    · have hlr : (q, v) ∈ rest := by
        rcases List.mem_cons.mp hl with h | h
        · exact absurd (congrArg Prod.fst h.symm) hp
        · exact h
      rw [List.foldl_cons]
      exact ih _ hlr hnd.2

theorem pairFold_lookup_skipped (labels : GoMap String)
    (st : GoMap (List String) × List String) (q v : String)
    (hl : (q, v) ∈ labels) (hnd : (keys labels).Nodup)
    (harr : ¬((goSplit v ',').length = 1 ∨ (goSplit v ',').length = 2)) :
    alookup (labels.foldl splitStep st).1 q = alookup st.1 q := by
  induction labels generalizing st with
  | nil => rfl
  | cons p rest ih =>
    simp only [keys, List.map_cons, List.nodup_cons] at hnd
    by_cases hp : p.1 = q
    · have hpeq : p = (q, v) := by
        rcases List.mem_cons.mp hl with h | h
        · exact h.symm
        · refine absurd ?_ hnd.1
          rw [hp]
          exact List.mem_map_of_mem Prod.fst h
      subst hpeq
      rw [List.foldl_cons, pairFold_lookup_fresh rest _ q ?fresh]
      · simp only [splitStep]
        rw [if_neg harr]
      case fresh =>
        intro r hm he
        refine hnd.1 ?_
        show q ∈ List.map Prod.fst rest
        rw [← he]
        exact List.mem_map_of_mem Prod.fst hm
    · have hlr : (q, v) ∈ rest := by
        rcases List.mem_cons.mp hl with h | h
        · exact absurd (congrArg Prod.fst h.symm) hp
        · exact h
      rw [List.foldl_cons, ih _ hlr hnd.2]
      simp only [splitStep]
      by_cases h2 : (goSplit p.2 ',').length = 1 ∨ (goSplit p.2 ',').length = 2
      · rw [if_pos h2]
        exact alookup_aset_ne _ _ _ _ (Ne.symm hp)
      · rw [if_neg h2]

theorem pairFold_warn_mono (labels : GoMap String)
    (st : GoMap (List String) × List String) (q : String) (h : q ∈ st.2) :
    q ∈ (labels.foldl splitStep st).2 := by
  induction labels generalizing st with
  | nil => exact h
  | cons p rest ih =>
    rw [List.foldl_cons]
    refine ih _ ?_
    simp only [splitStep]
    by_cases h2 : (goSplit p.2 ',').length = 1 ∨ (goSplit p.2 ',').length = 2
    · rw [if_pos h2]
      exact h
    · rw [if_neg h2]
      exact List.mem_append_left _ h

theorem pairFold_warn_mem (labels : GoMap String)
    (st : GoMap (List String) × List String) (q v : String)
    (hl : (q, v) ∈ labels)
    (harr : ¬((goSplit v ',').length = 1 ∨ (goSplit v ',').length = 2)) :
    q ∈ (labels.foldl splitStep st).2 := by
  induction labels generalizing st with
  | nil => simp at hl
  | cons p rest ih =>
    rcases List.mem_cons.mp hl with heq | hin
    · rw [List.foldl_cons]
      apply pairFold_warn_mono
      rw [← heq]
      simp only [splitStep]
      rw [if_neg harr]
      simp
    · rw [List.foldl_cons]
      exact ih _ hin

theorem pairFold_keys_nodup (labels : GoMap String)
    (st : GoMap (List String) × List String) (h : (keys st.1).Nodup) :
    (keys (labels.foldl splitStep st).1).Nodup := by
  induction labels generalizing st with
  | nil => exact h
  | cons p rest ih =>
    rw [List.foldl_cons]
    refine ih _ ?_
    simp only [splitStep]
    by_cases h2 : (goSplit p.2 ',').length = 1 ∨ (goSplit p.2 ',').length = 2
    · rw [if_pos h2]
      exact keys_nodup_aset _ _ _ h
    · rw [if_neg h2]
      exact h

theorem pairFold_keys_subset (labels : GoMap String)
    (st : GoMap (List String) × List String) (q : String)
    (h : q ∈ keys (labels.foldl splitStep st).1) :
    q ∈ keys st.1 ∨ q ∈ keys labels := by
  induction labels generalizing st with
  | nil => exact Or.inl h
  | cons p rest ih =>
    rw [List.foldl_cons] at h
    rcases ih _ h with h1 | h2
    · simp only [splitStep] at h1
      by_cases h3 : (goSplit p.2 ',').length = 1 ∨ (goSplit p.2 ',').length = 2
      · rw [if_pos h3] at h1
        rcases (mem_keys_aset _ _ _ _).mp h1 with hin | heq
        · exact Or.inl hin
        · right
          rw [heq]
          simp [keys]
      · rw [if_neg h3] at h1
        exact Or.inl h1
    · right
      simp only [keys, List.map_cons]
      exact List.mem_cons_of_mem _ h2

/-! Lemmas for default-name synthesis. -/

theorem addDefaultName_lookup_ne (l : GoMap (List String)) (labels : GoMap String)
    (sA sB q : String) (hq : q ≠ "name") :
    alookup (addDefaultName l labels sA sB) q = alookup l q := by
  unfold addDefaultName
  by_cases h : (alookup l "name").isSome
  · rw [if_pos h]
  · rw [if_neg h]
    exact alookup_aset_ne _ _ _ _ hq

theorem addDefaultName_none (l : GoMap (List String)) (labels : GoMap String)
    (sA sB : String) (h : alookup l "name" = none) :
    addDefaultName l labels sA sB =
      aset l "name" ["to_" ++ sB ++ defaultSfx labels, "to_" ++ sA ++ defaultSfx labels] := by
  unfold addDefaultName
  rw [h]
  rfl

theorem addDefaultName_keys_nodup (l : GoMap (List String)) (labels : GoMap String)
    (sA sB : String) (h : (keys l).Nodup) :
    (keys (addDefaultName l labels sA sB)).Nodup := by
  unfold addDefaultName
  by_cases hn : (alookup l "name").isSome
  · rw [if_pos hn]
    exact h
  · rw [if_neg hn]
    exact keys_nodup_aset _ _ _ h

theorem addDefaultName_keys_subset (l : GoMap (List String)) (labels : GoMap String)
    (sA sB q : String) (h : q ∈ keys (addDefaultName l labels sA sB)) :
    q ∈ keys l ∨ q = "name" := by
  unfold addDefaultName at h
  by_cases hn : (alookup l "name").isSome
  · rw [if_pos hn] at h
    exact Or.inl h
  · rw [if_neg hn] at h
    exact (mem_keys_aset _ _ _ _).mp h

/-! Helper: successful template rendering. -/

theorem renderTemplate_ok {T : Type}
    (exec : T → String → GoMap String → Except String String)
    (cache : GoMap (Option T)) (kind name : String) (labels : GoMap String)
    (t : T) (out : String)
    (hc : alookup cache kind = some (some t))
    (he : exec t name labels = Except.ok out) :
    RenderTemplate exec cache kind name labels =
      RunRes.ok { targetNode := none, templateName := name, source := "",
                  templateLabels := labels, Config := scanLines out } := by
  unfold RenderTemplate
  rw [hc]
  dsimp only
  rw [he]

/-! Claim theorems. -/

/-- C2: the spec requires `ipmask` on a value without `/` to fail with an
InvalidFormat error and not crash.  The code indexes the split unguarded:
on `10.0.0.1` it panics with an out-of-range index instead of returning an
error, while the happy path (`10.0.0.1/31` to `31`) behaves as specified. -/
theorem ipmask_no_slash_panics :
    ipmask "10.0.0.1" = RunRes.panic ∧ ipmask "10.0.0.1/31" = RunRes.ok "31" :=
  ⟨rfl, rfl⟩

/-- C7 counterexample: rendering a kind that was never loaded does not return
a template-lookup error; the nil cache entry is dereferenced and the call
panics. -/
theorem renderTemplate_unloaded_kind_cex :
    RenderTemplate (fun (_ : Nat) (_ : String) (_ : GoMap String) => Except.ok "")
      [] "srl" "base-node.tmpl" [] = RunRes.panic := rfl

/-- C7 amended: for every kind for which no `LoadTemplate` call has succeeded
(no cache entry, or a nil entry left by a failed load), a render call naming
that kind deterministically crashes with a nil dereference panic — it does not
return a template-lookup error. -/
theorem renderTemplate_unloaded_kind_panics {T : Type}
    (exec : T → String → GoMap String → Except String String)
    (cache : GoMap (Option T)) (kind name : String) (labels : GoMap String)
    (h : alookup cache kind = none ∨ alookup cache kind = some none) :
    RenderTemplate exec cache kind name labels = RunRes.panic := by
  unfold RenderTemplate
  rcases h with h | h <;> rw [h]

/-- C7 witness: the amended theorem applied to a concrete unloaded kind. -/
theorem renderTemplate_unloaded_kind_panics_witness :
    RenderTemplate (fun (_ : Nat) (_ : String) (_ : GoMap String) => Except.ok "out")
      [("other", some 0)] "srl" "base-link.tmpl" [("a", "b")] = RunRes.panic :=
  renderTemplate_unloaded_kind_panics _ _ "srl" "base-link.tmpl" _ (Or.inl (by decide))

/-- C8: on a parse failure the Go multi-assignment stores the nil parse result
under the kind, so the slot does not remain unpopulated: a second load of the
same kind (here with the same failing parser) reports success immediately
instead of re-attempting compilation. -/
theorem loadTemplate_failure_populates_slot :
    LoadTemplate (fun _ => (Except.error "parse error" : Except String Nat))
      [] "srl" "/templates" = ([("srl", none)], some "parse error") ∧
    LoadTemplate (fun _ => (Except.error "parse error" : Except String Nat))
      [("srl", (none : Option Nat))] "srl" "/templates" = ([("srl", none)], none) :=
  ⟨rfl, rfl⟩

/-- C9: after a successful load of a kind, the cache holds the parsed template
set, and every subsequent load of that kind — with any parse function and any
path, i.e. without compiling anything — returns success and leaves the cache,
including the originally parsed set, unchanged. -/
theorem loadTemplate_idempotent {T : Type}
    (pg : String → Except String T) (cache : GoMap (Option T))
    (kind path : String) (t : T)
    (hfresh : alookup cache kind = none)
    (hok : pg (path ++ "/" ++ kind ++ "/*.tmpl") = Except.ok t) :
    LoadTemplate pg cache kind path = (aset cache kind (some t), none) ∧
    alookup (aset cache kind (some t)) kind = some (some t) ∧
    ∀ (pg2 : String → Except String T) (path2 : String),
      LoadTemplate pg2 (aset cache kind (some t)) kind path2 =
        (aset cache kind (some t), none) := by
  refine ⟨?_, alookup_aset_self _ _ _, ?_⟩
  · unfold LoadTemplate
    rw [hfresh, hok]
    rfl
  · intro pg2 path2
    unfold LoadTemplate
    rw [alookup_aset_self]
    rfl

/-- C9 witness: the idempotency theorem applied to a concrete first load. -/
theorem loadTemplate_idempotent_witness :
    LoadTemplate (fun _ => (Except.ok 7 : Except String Nat)) [] "srl" "/t"
      = ([("srl", some 7)], none) ∧
    LoadTemplate (fun _ => (Except.error "boom" : Except String Nat))
      [("srl", some 7)] "srl" "/other" = ([("srl", some 7)], none) := by
  have h := loadTemplate_idempotent (fun _ => (Except.ok 7 : Except String Nat))
    [] "srl" "/t" 7 rfl rfl
  exact ⟨h.1, h.2.2 (fun _ => Except.error "boom") "/other"⟩

theorem ite_ok_panic_ne_err {α : Type} (c : Prop) [Decidable c] (x : α) (msg : String) :
    (if c then RunRes.ok x else RunRes.panic) ≠ RunRes.err msg := by
  by_cases h : c
  · rw [if_pos h]
    exact fun hc => RunRes.noConfusion hc
  · rw [if_neg h]
    exact fun hc => RunRes.noConfusion hc

/-- C10: the `slice` template function returns an error only for non-integer
start/end arguments or values that are neither strings nor generic sequences;
for a string or sequence with integer indices whose adjusted range is invalid
(end beyond the length, start above end, or an index still negative after
adjustment) it evaluates the unguarded Go slice expression and panics instead
of returning an error. -/
theorem slice_unguarded_bounds :
    (∀ val st en msg, slice val st en = RunRes.err msg →
      (∀ s0 : Int, st ≠ .int s0) ∨ (∀ e0 : Int, en ≠ .int e0) ∨
      ((∀ v, val ≠ .str v) ∧ (∀ l, val ≠ .arr l))) ∧
    (∀ (v : String) (s0 e0 : Int),
      ¬(0 ≤ (if s0 < 0 then s0 + (v.length : Int) else s0) ∧
        (if s0 < 0 then s0 + (v.length : Int) else s0) ≤
          (if e0 < 0 then e0 + (v.length : Int) else e0) ∧
        (if e0 < 0 then e0 + (v.length : Int) else e0) ≤ (v.length : Int)) →
      slice (.str v) (.int s0) (.int e0) = RunRes.panic) ∧
    (∀ (l : List GoVal) (s0 e0 : Int),
      ¬(0 ≤ (if s0 < 0 then s0 + (l.length : Int) else s0) ∧
        (if s0 < 0 then s0 + (l.length : Int) else s0) ≤
          (if e0 < 0 then e0 + (l.length : Int) else e0) ∧
        (if e0 < 0 then e0 + (l.length : Int) else e0) ≤ (l.length : Int)) →
      slice (.arr l) (.int s0) (.int e0) = RunRes.panic) := by
  refine ⟨?_, ?_, ?_⟩
  · intro val st en msg h
    cases st with
    | int s0 =>
      cases en with
      | int e0 =>
        cases val with
        | str v =>
          simp only [slice] at h
          exact absurd h (ite_ok_panic_ne_err _ _ _)
        | arr l =>
          simp only [slice] at h
          exact absurd h (ite_ok_panic_ne_err _ _ _)
        | int n =>
          exact Or.inr (Or.inr ⟨fun v hv => GoVal.noConfusion hv,
            fun l hl => GoVal.noConfusion hl⟩)
        | other =>
          exact Or.inr (Or.inr ⟨fun v hv => GoVal.noConfusion hv,
            fun l hl => GoVal.noConfusion hl⟩)
      | str v => exact Or.inr (Or.inl fun e0 hv => GoVal.noConfusion hv)
      | arr l => exact Or.inr (Or.inl fun e0 hv => GoVal.noConfusion hv)
      | other => exact Or.inr (Or.inl fun e0 hv => GoVal.noConfusion hv)
    | str v => exact Or.inl fun s0 hv => GoVal.noConfusion hv
    | arr l => exact Or.inl fun s0 hv => GoVal.noConfusion hv
    | other => exact Or.inl fun s0 hv => GoVal.noConfusion hv
  · intro v s0 e0 hbad
    simp only [slice]
    rw [if_neg hbad]
  · intro l s0 e0 hbad
    simp only [slice]
    rw [if_neg hbad]

/-- C10 witness: `slice("abc", 1, 5)` has an adjusted end index beyond the
length and panics. -/
theorem slice_unguarded_bounds_witness :
    slice (.str "abc") (.int 1) (.int 5) = RunRes.panic :=
  slice_unguarded_bounds.2.1 "abc" 1 5 (by decide)

/-- C3 counterexample: a link label literally named `ip` is comma-split like
every other label and overwrites the computed endpoint addresses in the pair
map, so the `ip` entry is not the address pair the external collaborator
returned. -/
theorem renderLink_ip_label_cex :
    alookup (buildPairMap "10.0.0.0" "10.0.0.1" "sysA" "sysB"
      [("ip", "x")] "r1" "r2").1 "ip" = some ["x"] ∧
    alookup (buildPairMap "10.0.0.0" "10.0.0.1" "sysA" "sysB"
      [("ip", "x")] "r1" "r2").1 "ip" ≠ some ["10.0.0.0", "10.0.0.1"] := by
  decide

/-- C3 amended: the `ip` pair entry is the two endpoint addresses returned by
the external address collaborator and the `systemip` entry is the two nodes'
system-IP label values, provided the link's shared LabelMap contains no key
named `ip` or `systemip`; the comma-splitting loop runs over every key of the
LabelMap, so labels with those names do replace the computed values. -/
theorem renderLink_computed_ip_systemip (ipA ipB sysA sysB : String)
    (labels : GoMap String) (sA sB : String)
    (hip : ∀ p ∈ labels, p.1 ≠ "ip") (hsys : ∀ p ∈ labels, p.1 ≠ "systemip") :
    alookup (buildPairMap ipA ipB sysA sysB labels sA sB).1 "ip"
      = some [ipA, ipB] ∧
    alookup (buildPairMap ipA ipB sysA sysB labels sA sB).1 "systemip"
      = some [sysA, sysB] := by
  unfold buildPairMap pairFold
  constructor
  · rw [addDefaultName_lookup_ne _ _ _ _ _ (by decide)]
    rw [pairFold_lookup_fresh _ _ _ hip]
    rfl
  · rw [addDefaultName_lookup_ne _ _ _ _ _ (by decide)]
    rw [pairFold_lookup_fresh _ _ _ hsys]
    rfl

/-- C3 witness: the amended theorem applied to a concrete link label map. -/
theorem renderLink_computed_ip_systemip_witness :
    alookup (buildPairMap "i1" "i2" "s1" "s2" [("x", "a")] "r1" "r2").1 "ip"
      = some ["i1", "i2"] ∧
    alookup (buildPairMap "i1" "i2" "s1" "s2" [("x", "a")] "r1" "r2").1 "systemip"
      = some ["s1", "s2"] :=
  renderLink_computed_ip_systemip "i1" "i2" "s1" "s2" [("x", "a")] "r1" "r2"
    (by decide) (by decide)

/-- C1: for every attribute of the per-side pair map (whose keys are distinct
and do not collide with the attribute's `_far` key), a two-valued entry
`(k, [x, y])` gives side A near `x` and far `y` and side B near `y` and far
`x`, while a one-valued entry gives both sides the same near value and no
far key for that attribute. -/
theorem renderLink_near_far (l : GoMap (List String)) (k : String)
    (hnd : (keys l).Nodup)
    (hfar1 : ∀ p ∈ l, p.1 ++ "_far" ≠ k)
    (hfar2 : ∀ p ∈ l, p.1 ≠ k ++ "_far") :
    (∀ x y, (k, [x, y]) ∈ l →
      alookup (buildSide true l) k = some x ∧
      alookup (buildSide true l) (k ++ "_far") = some y ∧
      alookup (buildSide false l) k = some y ∧
      alookup (buildSide false l) (k ++ "_far") = some x) ∧
    (∀ x, (k, [x]) ∈ l →
      alookup (buildSide true l) k = some x ∧
      alookup (buildSide false l) k = some x ∧
      alookup (buildSide true l) (k ++ "_far") = none ∧
      alookup (buildSide false l) (k ++ "_far") = none) := by
  constructor
  · intro x y hm
    refine ⟨?_, ?_, ?_, ?_⟩
    · rw [buildSide, foldSide_lookup_mem true l [] k [x, y] hm hnd hfar1 (by simp)]
      rfl
    · rw [buildSide, foldSide_lookup_far_pair true l [] k x y [] hm hnd hfar2]
      rfl
    · rw [buildSide, foldSide_lookup_mem false l [] k [x, y] hm hnd hfar1 (by simp)]
      rfl
    · rw [buildSide, foldSide_lookup_far_pair false l [] k x y [] hm hnd hfar2]
      rfl
  · intro x hm
    refine ⟨?_, ?_, ?_, ?_⟩
    · rw [buildSide, foldSide_lookup_mem true l [] k [x] hm hnd hfar1 (by simp)]
      rfl
    · rw [buildSide, foldSide_lookup_mem false l [] k [x] hm hnd hfar1 (by simp)]
      rfl
    · rw [buildSide, foldSide_lookup_far_single true l [] k x hm hnd hfar2]
      rfl
    · rw [buildSide, foldSide_lookup_far_single false l [] k x hm hnd hfar2]
      rfl

/-- C1 witness: the near/far theorem applied to a concrete pair map, on its
two-valued attribute `x` and its one-valued attribute `y`. -/
theorem renderLink_near_far_witness :
    (alookup (buildSide true [("ip", ["i1", "i2"]), ("x", ["a", "b"]), ("y", ["c"])]) "x"
        = some "a" ∧
      alookup (buildSide true [("ip", ["i1", "i2"]), ("x", ["a", "b"]), ("y", ["c"])]) "x_far"
        = some "b" ∧
      alookup (buildSide false [("ip", ["i1", "i2"]), ("x", ["a", "b"]), ("y", ["c"])]) "x"
        = some "b" ∧
      alookup (buildSide false [("ip", ["i1", "i2"]), ("x", ["a", "b"]), ("y", ["c"])]) "x_far"
        = some "a") ∧
    (alookup (buildSide true [("ip", ["i1", "i2"]), ("x", ["a", "b"]), ("y", ["c"])]) "y"
        = some "c" ∧
      alookup (buildSide false [("ip", ["i1", "i2"]), ("x", ["a", "b"]), ("y", ["c"])]) "y"
        = some "c" ∧
      alookup (buildSide true [("ip", ["i1", "i2"]), ("x", ["a", "b"]), ("y", ["c"])]) "y_far"
        = none ∧
      alookup (buildSide false [("ip", ["i1", "i2"]), ("x", ["a", "b"]), ("y", ["c"])]) "y_far"
        = none) := by
  have hx := renderLink_near_far [("ip", ["i1", "i2"]), ("x", ["a", "b"]), ("y", ["c"])] "x"
    (by decide) (by decide) (by decide)
  have hy := renderLink_near_far [("ip", ["i1", "i2"]), ("x", ["a", "b"]), ("y", ["c"])] "y"
    (by decide) (by decide) (by decide)
  exact ⟨hx.1 "a" "b" (by decide), hy.2 "c" (by decide)⟩

theorem str_length_pos_of_ne {s : String} (h : s ≠ "") : 0 < s.length := by
  rcases Nat.eq_zero_or_pos s.length with h0 | hp
  · have hdata : s.data = [] := List.eq_nil_of_length_eq_zero h0
    exact absurd (@String.ext s "" hdata) h
  · exact hp

/-- C6: when the pair map ends up with no `name` key, `RenderLink` synthesizes
defaults: side A's name is `to_` followed by endpoint B's short name, side B's
is `to_` followed by endpoint A's short name, and the suffix is `_` followed
by the link's `linkNr` label exactly when that label is present and non-empty
(no suffix otherwise). -/
theorem renderLink_default_names (ipA ipB sysA sysB : String) (labels : GoMap String)
    (sA sB : String)
    (hname : alookup (pairFold labels (initialPairs ipA ipB sysA sysB)).1 "name" = none) :
    alookup (buildSide true (buildPairMap ipA ipB sysA sysB labels sA sB).1) "name"
      = some ("to_" ++ sB ++ defaultSfx labels) ∧
    alookup (buildSide false (buildPairMap ipA ipB sysA sysB labels sA sB).1) "name"
      = some ("to_" ++ sA ++ defaultSfx labels) ∧
    (∀ nr, alookup labels "linkNr" = some nr → nr ≠ "" →
      defaultSfx labels = "_" ++ nr) ∧
    ((alookup labels "linkNr" = none ∨ alookup labels "linkNr" = some "") →
      defaultSfx labels = "") := by
  have hnd0 : (keys (pairFold labels (initialPairs ipA ipB sysA sysB)).1).Nodup := by
    unfold pairFold
    exact pairFold_keys_nodup labels _ (by simp [initialPairs, keys])
  have hbp : (buildPairMap ipA ipB sysA sysB labels sA sB).1
      = aset (pairFold labels (initialPairs ipA ipB sysA sysB)).1 "name"
          ["to_" ++ sB ++ defaultSfx labels, "to_" ++ sA ++ defaultSfx labels] := by
    unfold buildPairMap
    exact addDefaultName_none _ _ _ _ hname
  have hndl : (keys (buildPairMap ipA ipB sysA sysB labels sA sB).1).Nodup := by
    rw [hbp]
    exact keys_nodup_aset _ _ _ hnd0
  have hlook : alookup (buildPairMap ipA ipB sysA sysB labels sA sB).1 "name"
      = some ["to_" ++ sB ++ defaultSfx labels, "to_" ++ sA ++ defaultSfx labels] := by
    rw [hbp]
    exact alookup_aset_self _ _ _
  have hmem := mem_of_alookup _ _ _ hlook
  refine ⟨?_, ?_, ?_, ?_⟩
  · rw [buildSide, foldSide_lookup_mem true _ [] "name" _ hmem hndl
      (fun p _ => far_ne_name p.1) (by simp)]
    rfl
  · rw [buildSide, foldSide_lookup_mem false _ [] "name" _ hmem hndl
      (fun p _ => far_ne_name p.1) (by simp)]
    rfl
  · intro nr hnr hne
    unfold defaultSfx
    rw [hnr]
    simp only [Option.getD_some]
    rw [if_pos (str_length_pos_of_ne hne)]
  · intro h
    unfold defaultSfx
    rcases h with h | h <;> rw [h] <;> rfl

/-- C6 witness: concrete nodes `r1`, `r2` with `linkNr` label `3` produce the
default names `to_r2_3` and `to_r1_3`. -/
theorem renderLink_default_names_witness :
    alookup (buildSide true
      (buildPairMap "i1" "i2" "s1" "s2" [("linkNr", "3")] "r1" "r2").1) "name"
      = some "to_r2_3" ∧
    alookup (buildSide false
      (buildPairMap "i1" "i2" "s1" "s2" [("linkNr", "3")] "r1" "r2").1) "name"
      = some "to_r1_3" := by
  have h := renderLink_default_names "i1" "i2" "s1" "s2" [("linkNr", "3")] "r1" "r2"
    (by decide)
  exact ⟨h.1, h.2.1⟩

theorem renderLink_ok {T : Type}
    (exec : T → String → GoMap String → Except String String)
    (cache : GoMap (Option T)) (link : Link) (ipA ipB : String)
    (tA tB : T) (outA outB : String)
    (hcA : alookup cache (kindOf link.A) = some (some tA))
    (hcB : alookup cache (kindOf link.B) = some (some tB))
    (heA : exec tA "base-link.tmpl" (buildSide true (linkPairMap link ipA ipB).1)
      = Except.ok outA)
    (heB : exec tB "base-link.tmpl" (buildSide false (linkPairMap link ipA ipB).1)
      = Except.ok outB) :
    RenderLink exec cache (Except.ok (ipA, ipB)) link =
      (RunRes.ok
        ({ targetNode := some link.A, templateName := "base-link.tmpl",
           source := link.display,
           templateLabels := buildSide true (linkPairMap link ipA ipB).1,
           Config := scanLines outA },
         { targetNode := some link.B, templateName := "base-link.tmpl",
           source := link.display,
           templateLabels := buildSide false (linkPairMap link ipA ipB).1,
           Config := scanLines outB }),
       (linkPairMap link ipA ipB).2) := by
  unfold RenderLink
  dsimp only
  rw [renderTemplate_ok exec cache (kindOf link.A) "base-link.tmpl" _ tA outA hcA heA]
  dsimp only
  rw [renderTemplate_ok exec cache (kindOf link.B) "base-link.tmpl" _ tB outB hcB heB]

theorem splitAux_ne_nil (sep : Char) (acc s : List Char) :
    splitAux sep acc s ≠ [] := by
  induction s generalizing acc with
  | nil => simp [splitAux]
  | cons c cs ih =>
    simp only [splitAux]
    by_cases hc : c = sep
    · rw [if_pos hc]
      simp
    · rw [if_neg hc]
      exact ih _

/-- C5 counterexample: three skipped labels that are nevertheless present in
the per-side maps.  A label named `name` with a three-token split is skipped
with a warning, yet default-name synthesis puts a `name` entry into both
sides; a skipped label named `ip_far` is still present on both sides as the
far value of the computed `ip` entry; and a skipped label named `q_far` is
still present as the far value of the two-token label `q`. -/
theorem renderLink_skipped_key_cex :
    ((buildPairMap "i1" "i2" "s1" "s2" [("name", "a,b,c")] "r1" "r2").2
        = ["name"] ∧
      alookup (buildSide true (buildPairMap "i1" "i2" "s1" "s2"
        [("name", "a,b,c")] "r1" "r2").1) "name" = some "to_r2" ∧
      alookup (buildSide false (buildPairMap "i1" "i2" "s1" "s2"
        [("name", "a,b,c")] "r1" "r2").1) "name" = some "to_r1") ∧
    ((buildPairMap "i1" "i2" "s1" "s2" [("ip_far", "a,b,c")] "r1" "r2").2
        = ["ip_far"] ∧
      alookup (buildSide true (buildPairMap "i1" "i2" "s1" "s2"
        [("ip_far", "a,b,c")] "r1" "r2").1) "ip_far" = some "i2" ∧
      alookup (buildSide false (buildPairMap "i1" "i2" "s1" "s2"
        [("ip_far", "a,b,c")] "r1" "r2").1) "ip_far" = some "i1") ∧
    ((buildPairMap "i1" "i2" "s1" "s2" [("q", "a,b"), ("q_far", "x,y,z")]
        "r1" "r2").2 = ["q_far"] ∧
      alookup (buildSide true (buildPairMap "i1" "i2" "s1" "s2"
        [("q", "a,b"), ("q_far", "x,y,z")] "r1" "r2").1) "q_far" = some "b" ∧
      alookup (buildSide false (buildPairMap "i1" "i2" "s1" "s2"
        [("q", "a,b"), ("q_far", "x,y,z")] "r1" "r2").1) "q_far" = some "a") := by
  decide

/-- C5 amended: for every link label key `k` that is not one of `ip`,
`systemip`, `name`, is not one of the far keys `ip_far`, `systemip_far`,
`name_far`, and is not the `_far` companion of any link label key, if its
comma-split yields three or more tokens — zero tokens cannot occur, a split
is never empty — then `k` is absent from both sides' per-side maps, a
non-fatal warning naming `k` is recorded, and `RenderLink` still succeeds
when both kinds are loaded and template execution succeeds.  Each exclusion
is forced by a case of the counterexample: `ip`/`systemip`/`name` stay
present through their computed or synthesized entries, and a key of the form
`<attr>_far` stays present as the far value written for the surviving
attribute `attr`.  The key-uniqueness hypothesis encodes that Go map keys
are distinct. -/
theorem renderLink_bad_arity_skipped {T : Type}
    (exec : T → String → GoMap String → Except String String)
    (cache : GoMap (Option T)) (link : Link) (ipA ipB : String)
    (tA tB : T) (out : String) (k v : String)
    (hmem : (k, v) ∈ link.labels)
    (hnd : (keys link.labels).Nodup)
    (harr : ¬((goSplit v ',').length = 1 ∨ (goSplit v ',').length = 2))
    (hk1 : k ≠ "ip") (hk2 : k ≠ "systemip") (hk3 : k ≠ "name")
    (hk4 : k ≠ "ip" ++ "_far") (hk5 : k ≠ "systemip" ++ "_far")
    (hk6 : k ≠ "name" ++ "_far")
    (hfar : ∀ p ∈ link.labels, p.1 ++ "_far" ≠ k)
    (hcA : alookup cache (kindOf link.A) = some (some tA))
    (hcB : alookup cache (kindOf link.B) = some (some tB))
    (hexec : ∀ t n lb, exec t n lb = Except.ok out) :
    (∀ v2, (goSplit v2 ',').length ≠ 0) ∧
    (∀ ipA2 ipB2 sysA sysB sA sB,
      alookup (buildSide true
        (buildPairMap ipA2 ipB2 sysA sysB link.labels sA sB).1) k = none ∧
      alookup (buildSide false
        (buildPairMap ipA2 ipB2 sysA sysB link.labels sA sB).1) k = none ∧
      k ∈ (buildPairMap ipA2 ipB2 sysA sysB link.labels sA sB).2) ∧
    (∃ s1 s2, RenderLink exec cache (Except.ok (ipA, ipB)) link
      = (RunRes.ok (s1, s2), (linkPairMap link ipA ipB).2)) := by
  refine ⟨?_, ?_, ?_⟩
  · intro v2 h0
    exact splitAux_ne_nil ',' [] v2.data
      (List.eq_nil_of_length_eq_zero (by simpa [goSplit] using h0))
  · intro ipA2 ipB2 sysA sysB sA sB
    have hinit : alookup (initialPairs ipA2 ipB2 sysA sysB) k = none := by
      simp only [initialPairs, alookup]
      rw [if_neg (fun h => hk1 h.symm), if_neg (fun h => hk2 h.symm)]
    have hfold : alookup
        (link.labels.foldl splitStep (initialPairs ipA2 ipB2 sysA sysB, [])).1 k
        = none := by
      rw [pairFold_lookup_skipped link.labels _ k v hmem hnd harr]
      exact hinit
    have hl2 : alookup (addDefaultName
        (link.labels.foldl splitStep (initialPairs ipA2 ipB2 sysA sysB, [])).1
        link.labels sA sB) k = none := by
      rw [addDefaultName_lookup_ne _ _ _ _ _ hk3]
      exact hfold
    have hknotin := (alookup_eq_none_iff _ k).mp hl2
    have hfresh : ∀ p ∈ addDefaultName
        (link.labels.foldl splitStep (initialPairs ipA2 ipB2 sysA sysB, [])).1
        link.labels sA sB, p.1 ≠ k ∧ p.1 ++ "_far" ≠ k := by
      intro p hp
      have hpk : p.1 ∈ keys (addDefaultName
          (link.labels.foldl splitStep (initialPairs ipA2 ipB2 sysA sysB, [])).1
          link.labels sA sB) := List.mem_map_of_mem Prod.fst hp
      constructor
      · intro he
        rw [he] at hpk
        exact hknotin hpk
      · rcases addDefaultName_keys_subset _ _ _ _ _ hpk with hsub | hname2
        · rcases pairFold_keys_subset _ _ _ hsub with hinit2 | hlab
          · simp only [initialPairs, keys, List.map_cons, List.map_nil,
              List.mem_cons, List.not_mem_nil, or_false, List.mem_singleton] at hinit2
            rcases hinit2 with h | h
            · rw [h]
              exact Ne.symm hk4
            · rw [h]
              exact Ne.symm hk5
          · rcases List.mem_map.mp hlab with ⟨r, hr, hq⟩
            rw [← hq]
            exact hfar r hr
        · rw [hname2]
          exact Ne.symm hk6
    refine ⟨?_, ?_, ?_⟩
    · show alookup (buildSide true (addDefaultName
        (link.labels.foldl splitStep (initialPairs ipA2 ipB2 sysA sysB, [])).1
        link.labels sA sB)) k = none
      rw [buildSide, foldSide_lookup_fresh true _ [] k hfresh]
      rfl
    · show alookup (buildSide false (addDefaultName
        (link.labels.foldl splitStep (initialPairs ipA2 ipB2 sysA sysB, [])).1
        link.labels sA sB)) k = none
      rw [buildSide, foldSide_lookup_fresh false _ [] k hfresh]
      rfl
    · show k ∈ (link.labels.foldl splitStep (initialPairs ipA2 ipB2 sysA sysB, [])).2
      exact pairFold_warn_mem link.labels _ k v hmem harr
  · exact ⟨_, _, renderLink_ok exec cache link ipA ipB tA tB out out hcA hcB
      (hexec _ _ _) (hexec _ _ _)⟩

/-- C5 witness: a concrete link whose label `q` splits into three tokens. -/
theorem renderLink_bad_arity_skipped_witness :
    alookup (buildSide true (buildPairMap "i1" "i2" "s1" "s2"
      [("q", "a,b,c")] "r1" "r2").1) "q" = none ∧
    "q" ∈ (buildPairMap "i1" "i2" "s1" "s2" [("q", "a,b,c")] "r1" "r2").2 ∧
    (∃ s1 s2, RenderLink (fun (_ : Nat) (_ : String) (_ : GoMap String) => Except.ok "x")
      [("k", some 0)] (Except.ok ("i1", "i2"))
      { A := { longName := "r1long", shortName := "r1",
               labels := [("clab-node-kind", "k")] },
        B := { longName := "r2long", shortName := "r2",
               labels := [("clab-node-kind", "k")] },
        labels := [("q", "a,b,c")], display := "lnk" }
      = (RunRes.ok (s1, s2),
         (linkPairMap
           { A := { longName := "r1long", shortName := "r1",
                    labels := [("clab-node-kind", "k")] },
             B := { longName := "r2long", shortName := "r2",
                    labels := [("clab-node-kind", "k")] },
             labels := [("q", "a,b,c")], display := "lnk" } "i1" "i2").2)) := by
  have h := renderLink_bad_arity_skipped
    (fun (_ : Nat) (_ : String) (_ : GoMap String) => Except.ok "x")
    [("k", some 0)]
    { A := { longName := "r1long", shortName := "r1",
             labels := [("clab-node-kind", "k")] },
      B := { longName := "r2long", shortName := "r2",
             labels := [("clab-node-kind", "k")] },
      labels := [("q", "a,b,c")], display := "lnk" }
    "i1" "i2" 0 0 "x" "q" "a,b,c"
    (by decide) (by decide) (by decide) (by decide) (by decide) (by decide)
    (by decide) (by decide) (by decide) (by decide) (by decide) (by decide)
    (fun _ _ _ => rfl)
  exact ⟨(h.2.1 "i1" "i2" "s1" "s2" "r1" "r2").1,
    (h.2.1 "i1" "i2" "s1" "s2" "r1" "r2").2.2, h.2.2⟩

/-- C4: a successful `RenderTemplate` call returns exactly the rendered
output's lines, none added, removed or reordered, and a final terminating
newline produces no extra empty line; the second conjunct records that an
unterminated final line is also reproduced exactly (no line lost). -/
theorem renderTemplate_config_exact {T : Type}
    (exec : T → String → GoMap String → Except String String)
    (cache : GoMap (Option T)) (kind name : String) (labels : GoMap String)
    (t : T) (lines : List (List Char))
    (hc : alookup cache kind = some (some t))
    (hgood : ∀ l ∈ lines, goodLine l)
    (hne : lines ≠ [])
    (hout : exec t name labels = Except.ok (String.mk (joinNL lines ++ ['\n']))) :
    RenderTemplate exec cache kind name labels =
      RunRes.ok { targetNode := none, templateName := name, source := "",
                  templateLabels := labels, Config := lines.map List.asString } ∧
    (lines.getLast? ≠ some [] → scanTokens (joinNL lines) = lines) := by
  constructor
  · rw [renderTemplate_ok exec cache kind name labels t _ hc hout]
    have hsc : scanLines (String.mk (joinNL lines ++ ['\n']))
        = lines.map List.asString := by
      unfold scanLines
      rw [show (String.mk (joinNL lines ++ ['\n'])).data
          = joinNL lines ++ ['\n'] from rfl]
      rw [scanTokens_terminated lines hgood hne]
    rw [hsc]
  · exact fun h => scanTokens_unterminated lines hgood h

/-- C4 witness: rendering output `a`, `bc` with a terminating newline yields
exactly the two lines. -/
theorem renderTemplate_config_exact_witness :
    RenderTemplate
      (fun (_ : Nat) (_ : String) (_ : GoMap String) => Except.ok "a\nbc\n")
      [("k", some 0)] "k" "base-node.tmpl" [] =
      RunRes.ok { targetNode := none, templateName := "base-node.tmpl",
                  source := "", templateLabels := [], Config := ["a", "bc"] } ∧
    scanTokens (joinNL [['a'], ['b', 'c']]) = [['a'], ['b', 'c']] := by
  have h := renderTemplate_config_exact
    (fun (_ : Nat) (_ : String) (_ : GoMap String) => Except.ok "a\nbc\n")
    [("k", some 0)] "k" "base-node.tmpl" [] 0 [['a'], ['b', 'c']]
    (by decide) (by decide) (by decide) rfl
  exact ⟨h.1, h.2 (by decide)⟩

end Config
